import Mathlib

/-!
Verification development for the `eetf` external-term-format codec
(`src/codec.rs`).  The decoder and encoder are embedded shallowly:

* a byte stream is a `List Nat` (each element a byte value);
* the decoder is a fueled recursive function returning `DRes`, which has an
  explicit outcome for each Rust possibility: `ok` (with remaining input),
  `err` (a returned `DecodeError`), `aborted` (a Rust debug-mode panic such as
  the two `unimplemented!` arms and arithmetic-overflow checks on `8 -
  tail_bits_size` and the shifts), and `outOfFuel` (an artifact of the fuel;
  proved unreachable for the fuel used by the top-level entry point);
* `f64` values are represented by their IEEE-754 bit pattern (a `Nat`),
  which is exactly the information `read_f64`/`write_f64` transport;
* the zlib inflater (`libflate`, an external crate) and the textual `f32`
  parser (`str::parse`, the standard library) are parameters of the decoder:
  `inflate` returns the inflated remaining stream or `none` for an inflater
  error, `pf` returns the parsed float's widened bit pattern or `none` for a
  parse error.
-/

namespace Eetf

/-- Big-endian interpretation of a byte list. -/
def be_val (bs : List Nat) : Nat := bs.foldl (fun a b => a * 256 + b) 0

/-- Little-endian interpretation of a byte list (`BigInt::from_bytes_le`). -/
def le_val (bs : List Nat) : Nat := bs.foldr (fun b acc => b + 256 * acc) 0

/-- Two big-endian bytes of a 16-bit value (`write_u16::<BigEndian>`). -/
def u16be (n : Nat) : List Nat := [n / 256 % 256, n % 256]

/-- Four big-endian bytes of a 32-bit value (`write_u32::<BigEndian>`). -/
def u32be (n : Nat) : List Nat :=
  [n / 16777216 % 256, n / 65536 % 256, n / 256 % 256, n % 256]

/-- Eight big-endian bytes of a 64-bit value (`write_f64::<BigEndian>` on the
bit pattern). -/
def u64be (n : Nat) : List Nat :=
  [n / 72057594037927936 % 256, n / 281474976710656 % 256,
   n / 1099511627776 % 256, n / 4294967296 % 256, n / 16777216 % 256,
   n / 65536 % 256, n / 256 % 256, n % 256]

/-- The term algebra of `eetf` (the fifteen variants of `Term`).  Atom names
are kept as their UTF-8 byte sequences; a `Pid` inside a fun is flattened
into its four fields; floats carry their IEEE-754 bit pattern. -/
inductive Term where
  | atom (name : List Nat)
  | fixInteger (value : Int)
  | bigInteger (value : Int)
  | float (bits : Nat)
  | pid (node : List Nat) (id : Nat) (serial : Nat) (creation : Nat)
  | port (node : List Nat) (id : Nat) (creation : Nat)
  | reference (node : List Nat) (id : List Nat) (creation : Nat)
  | externalFun (module : List Nat) (function : List Nat) (arity : Nat)
  | internalFunOld (module : List Nat) (pidNode : List Nat) (pidId : Nat)
      (pidSerial : Nat) (pidCreation : Nat) (freeVars : List Term)
      (index : Int) (uniq : Int)
  | internalFunNew (module : List Nat) (arity : Nat) (pidNode : List Nat)
      (pidId : Nat) (pidSerial : Nat) (pidCreation : Nat)
      (freeVars : List Term) (index : Nat) (uniq : List Nat)
      (oldIndex : Int) (oldUniq : Int)
  | binary (bytes : List Nat)
  | bitBinary (bytes : List Nat) (tailBitsSize : Nat)
  | list (elements : List Term)
  | improperList (elements : List Term) (last : Term)
  | tuple (elements : List Term)
  | map (entries : List (Term × Term))

/-- The `DecodeError` enum.  `ioError` stands for `Io(_)`: underlying reader
failures, invalid-data errors from UTF-8/float/sign-byte validation, and
inflater errors are all surfaced through this constructor, as in the source. -/
inductive DecodeError where
  | ioError
  | unsupportedVersion (version : Nat)
  | unknownTag (tag : Nat)
  | unexpectedType (value : Term) (expected : String)
  | outOfRange (value : Int) (lo : Int) (hi : Int)
  | nonFiniteFloat

/-- The `EncodeError` enum (without `Io`, which the pure model never hits). -/
inductive EncodeError where
  | tooLongAtomName (name : List Nat)
  | tooLargeInteger (value : Int)
  | tooLargeReferenceId (node : List Nat) (id : List Nat) (creation : Nat)

/-- Causes of a Rust debug-mode abort (panic): the two `unimplemented!()`
arms, `8 - tail_bits_size` underflow, right/left shift by 8 or more, and the
`4 + buf.len() as u32` addition overflow. -/
inductive AbortCause where
  | unimplementedTag
  | subOverflow
  | shrOverflow
  | shlOverflow
  | addOverflow

/-- Outcome of running a piece of the decoder on an input: a value plus the
remaining input, a returned error, an abort (panic), or fuel exhaustion. -/
inductive DRes (α : Type) where
  | ok (val : α) (rest : List Nat)
  | err (e : DecodeError)
  | aborted (c : AbortCause)
  | outOfFuel

/-- Sequencing of decoder steps: errors, aborts and fuel exhaustion
short-circuit. -/
def dbind {α β : Type} (x : DRes α) (f : α → List Nat → DRes β) : DRes β :=
  match x with
  | .ok a rest => f a rest
  | .err e => .err e
  | .aborted c => .aborted c
  | .outOfFuel => .outOfFuel

/-- Lifting of a `Result`-returning auxiliary (the `aux::term_into_*`
family) into the decoding sequence. -/
def dthen {α β : Type} (x : Except DecodeError α) (rest : List Nat)
    (f : α → List Nat → DRes β) : DRes β :=
  match x with
  | .ok a => f a rest
  | .error e => .err e

/-- Reads one byte (`read_u8`); end of input is an I/O error. -/
def read_u8 : List Nat → DRes Nat
  | [] => .err .ioError
  | b :: rest => .ok b rest

/-- Reads exactly `n` bytes (`read_exact` and the fixed-width readers). -/
def read_exact (n : Nat) (input : List Nat) : DRes (List Nat) :=
  if n ≤ input.length then .ok (input.take n) (input.drop n) else .err .ioError

/-- Reads a big-endian `u16`. -/
def read_u16 (input : List Nat) : DRes Nat :=
  dbind (read_exact 2 input) fun bs r => .ok (be_val bs) r

/-- Reads a big-endian `u32`. -/
def read_u32 (input : List Nat) : DRes Nat :=
  dbind (read_exact 4 input) fun bs r => .ok (be_val bs) r

/-- Continuation byte test for UTF-8 validation. -/
def utf8_cont (b : Nat) : Bool := 128 ≤ b && b ≤ 191

/-- UTF-8 validity of a byte sequence, as checked by `str::from_utf8`
(used by `latin1_bytes_to_string` and the UTF-8 atom decoders). -/
def utf8_valid : List Nat → Bool
  | [] => true
  | b :: rest =>
    if b < 128 then utf8_valid rest
    else if b < 194 then false
    else if b ≤ 223 then
      match rest with
      | c1 :: r => utf8_cont c1 && utf8_valid r
      | [] => false
    else if b = 224 then
      match rest with
      | c1 :: c2 :: r => (160 ≤ c1 && c1 ≤ 191) && utf8_cont c2 && utf8_valid r
      | _ => false
    else if b ≤ 236 then
      match rest with
      | c1 :: c2 :: r => utf8_cont c1 && utf8_cont c2 && utf8_valid r
      | _ => false
    else if b = 237 then
      match rest with
      | c1 :: c2 :: r => (128 ≤ c1 && c1 ≤ 159) && utf8_cont c2 && utf8_valid r
      | _ => false
    else if b ≤ 239 then
      match rest with
      | c1 :: c2 :: r => utf8_cont c1 && utf8_cont c2 && utf8_valid r
      | _ => false
    else if b = 240 then
      match rest with
      | c1 :: c2 :: c3 :: r =>
        (144 ≤ c1 && c1 ≤ 191) && utf8_cont c2 && utf8_cont c3 && utf8_valid r
      | _ => false
    else if b ≤ 243 then
      match rest with
      | c1 :: c2 :: c3 :: r =>
        utf8_cont c1 && utf8_cont c2 && utf8_cont c3 && utf8_valid r
      | _ => false
    else if b = 244 then
      match rest with
      | c1 :: c2 :: c3 :: r =>
        (128 ≤ c1 && c1 ≤ 143) && utf8_cont c2 && utf8_cont c3 && utf8_valid r
      | _ => false
    else false

/-- The finiteness test on an IEEE-754 double bit pattern: the value is
finite iff the exponent bits are not all ones (`Float::try_from` rejects
NaN and the infinities). -/
def float_finite (bits : Nat) : Bool := bits / 4503599627370496 % 2048 != 2047

/-- Removal of the trailing NUL padding of a `FLOAT_EXT` payload
(`trim_end_matches(0 as char)`). -/
def drop_trailing_zeros (bs : List Nat) : List Nat :=
  (bs.reverse.dropWhile (fun b => b == 0)).reverse

/-- Model of `str::parse::<f32>` followed by widening to `f64`: from the
trimmed ASCII bytes to the widened bit pattern, or `none` on a parse error. -/
def PF : Type := List Nat → Option Nat

/-- `aux::term_into_atom`. -/
def term_into_atom : Term → Except DecodeError (List Nat)
  | .atom name => .ok name
  | t => .error (.unexpectedType t "Atom")

/-- `aux::term_into_pid` (the four fields of the `Pid`). -/
def term_into_pid : Term → Except DecodeError (List Nat × Nat × Nat × Nat)
  | .pid node id serial creation => .ok (node, id, serial, creation)
  | t => .error (.unexpectedType t "Pid")

/-- `aux::term_into_fix_integer` (the `value` field). -/
def term_into_fix_integer : Term → Except DecodeError Int
  | .fixInteger v => .ok v
  | t => .error (.unexpectedType t "FixInteger")

/-- `aux::term_into_ranged_integer` with `range = lo..hi`; note that the
source compares `range.start <= n && n <= range.end`, so `hi` itself is
accepted. -/
def term_into_ranged_integer (t : Term) (lo hi : Int) : Except DecodeError Int :=
  match term_into_fix_integer t with
  | .ok n => if lo ≤ n ∧ n ≤ hi then .ok n else .error (.outOfRange n lo hi)
  | .error e => .error e

/-- `aux::byte_to_sign`: `0` is plus, `1` is minus, anything else is an
invalid-data I/O error. -/
def byte_to_sign (b : Nat) : Except DecodeError Bool :=
  if b = 0 then .ok false else if b = 1 then .ok true else .error .ioError

/-- Test used by `decode_list_ext` on the tail term:
`try_as_ref::<List>().map(|l| l.is_nil()).unwrap_or(false)`. -/
def is_nil_list : Term → Bool
  | .list [] => true
  | _ => false

/-- `decode_nil_ext`. -/
def decode_nil_ext (input : List Nat) : DRes Term := .ok (.list []) input

/-- `decode_string_ext`: a `u16` length then that many raw bytes, each
becoming a `FixInteger`. -/
def decode_string_ext (input : List Nat) : DRes Term :=
  dbind (read_u16 input) fun size r1 =>
  dbind (read_exact size r1) fun bs r2 =>
  .ok (.list (bs.map fun b => .fixInteger (b : Int))) r2

/-- `decode_elements`: the `for _ in 0..count` loops that decode `count`
successive terms. -/
def decode_elements (dec : List Nat → DRes Term) :
    Nat → List Nat → DRes (List Term)
  | 0, input => .ok [] input
  | n + 1, input =>
    dbind (dec input) fun t r1 =>
    dbind (decode_elements dec n r1) fun ts r2 =>
    .ok (t :: ts) r2

/-- The key/value loop of `decode_map_ext`. -/
def decode_pairs (dec : List Nat → DRes Term) :
    Nat → List Nat → DRes (List (Term × Term))
  | 0, input => .ok [] input
  | n + 1, input =>
    dbind (dec input) fun k r1 =>
    dbind (dec r1) fun v r2 =>
    dbind (decode_pairs dec n r2) fun ps r3 =>
    .ok ((k, v) :: ps) r3

/-- The `u32` id-limb loop of `decode_new_reference_ext`. -/
def read_u32_list : Nat → List Nat → DRes (List Nat)
  | 0, input => .ok [] input
  | n + 1, input =>
    dbind (read_u32 input) fun x r1 =>
    dbind (read_u32_list n r1) fun xs r2 =>
    .ok (x :: xs) r2

/-- `decode_list_ext`: a `u32` count, that many elements, then one more term
as the tail; a nil tail gives a proper `List`, anything else an
`ImproperList`. -/
def decode_list_ext (dec : List Nat → DRes Term) (input : List Nat) : DRes Term :=
  dbind (read_u32 input) fun count r1 =>
  dbind (decode_elements dec count r1) fun elements r2 =>
  dbind (dec r2) fun last r3 =>
  if is_nil_list last then .ok (.list elements) r3
  else .ok (.improperList elements last) r3

/-- `decode_small_tuple_ext`. -/
def decode_small_tuple_ext (dec : List Nat → DRes Term) (input : List Nat) :
    DRes Term :=
  dbind (read_u8 input) fun count r1 =>
  dbind (decode_elements dec count r1) fun es r2 =>
  .ok (.tuple es) r2

/-- `decode_large_tuple_ext`. -/
def decode_large_tuple_ext (dec : List Nat → DRes Term) (input : List Nat) :
    DRes Term :=
  dbind (read_u32 input) fun count r1 =>
  dbind (decode_elements dec count r1) fun es r2 =>
  .ok (.tuple es) r2

/-- `decode_map_ext`. -/
def decode_map_ext (dec : List Nat → DRes Term) (input : List Nat) : DRes Term :=
  dbind (read_u32 input) fun count r1 =>
  dbind (decode_pairs dec count r1) fun ps r2 =>
  .ok (.map ps) r2

/-- `decode_binary_ext`. -/
def decode_binary_ext (input : List Nat) : DRes Term :=
  dbind (read_u32 input) fun size r1 =>
  dbind (read_exact size r1) fun bs r2 =>
  .ok (.binary bs) r2

/-- `decode_bit_binary_ext`: `u32` size, the tail-bits byte, `size` bytes;
with a nonempty payload the last byte is right-shifted by
`8 - tail_bits_size`.  With Rust debug overflow checks, a tail-bits byte
above 8 aborts on the subtraction, and 0 aborts on the 8-bit shift; the
byte itself is never range-checked. -/
def decode_bit_binary_ext (input : List Nat) : DRes Term :=
  dbind (read_u32 input) fun size r1 =>
  dbind (read_u8 r1) fun tail_bits r2 =>
  dbind (read_exact size r2) fun buf r3 =>
  if buf.isEmpty then .ok (.bitBinary buf tail_bits) r3
  else if 8 < tail_bits then .aborted .subOverflow
  else if tail_bits = 0 then .aborted .shrOverflow
  else .ok (.bitBinary (buf.dropLast ++ [buf.getLast?.getD 0 / 2 ^ (8 - tail_bits)])
        tail_bits) r3

/-- `decode_pid_ext`. -/
def decode_pid_ext (dec : List Nat → DRes Term) (input : List Nat) : DRes Term :=
  dbind (dec input) fun t r1 =>
  dthen (term_into_atom t) r1 fun node r2 =>
  dbind (read_u32 r2) fun id r3 =>
  dbind (read_u32 r3) fun serial r4 =>
  dbind (read_u8 r4) fun creation r5 =>
  .ok (.pid node id serial creation) r5

/-- `decode_port_ext` (its inline `try_into` produces the same
`UnexpectedType` with expected `"Atom"`). -/
def decode_port_ext (dec : List Nat → DRes Term) (input : List Nat) : DRes Term :=
  dbind (dec input) fun t r1 =>
  dthen (term_into_atom t) r1 fun node r2 =>
  dbind (read_u32 r2) fun id r3 =>
  dbind (read_u8 r3) fun creation r4 =>
  .ok (.port node id creation) r4

/-- `decode_reference_ext`: the single-limb form. -/
def decode_reference_ext (dec : List Nat → DRes Term) (input : List Nat) :
    DRes Term :=
  dbind (dec input) fun t r1 =>
  dthen (term_into_atom t) r1 fun node r2 =>
  dbind (read_u32 r2) fun id0 r3 =>
  dbind (read_u8 r3) fun creation r4 =>
  .ok (.reference node [id0] creation) r4

/-- `decode_new_reference_ext`. -/
def decode_new_reference_ext (dec : List Nat → DRes Term) (input : List Nat) :
    DRes Term :=
  dbind (read_u16 input) fun id_count r1 =>
  dbind (dec r1) fun t r2 =>
  dthen (term_into_atom t) r2 fun node r3 =>
  dbind (read_u8 r3) fun creation r4 =>
  dbind (read_u32_list id_count r4) fun id r5 =>
  .ok (.reference node id creation) r5

/-- `decode_export_ext`: module atom, function atom, then an arity term that
must be a `FixInteger` within `0..0xFF` (checked inclusively on both ends). -/
def decode_export_ext (dec : List Nat → DRes Term) (input : List Nat) :
    DRes Term :=
  dbind (dec input) fun tm r1 =>
  dthen (term_into_atom tm) r1 fun module r2 =>
  dbind (dec r2) fun tf r3 =>
  dthen (term_into_atom tf) r3 fun function r4 =>
  dbind (dec r4) fun ta r5 =>
  dthen (term_into_ranged_integer ta 0 255) r5 fun arity r6 =>
  .ok (.externalFun module function arity.toNat) r6

/-- `decode_fun_ext` (`InternalFun::Old`). -/
def decode_fun_ext (dec : List Nat → DRes Term) (input : List Nat) : DRes Term :=
  dbind (read_u32 input) fun num_free r1 =>
  dbind (dec r1) fun tp r2 =>
  dthen (term_into_pid tp) r2 fun p r3 =>
  dbind (dec r3) fun tm r4 =>
  dthen (term_into_atom tm) r4 fun module r5 =>
  dbind (dec r5) fun ti r6 =>
  dthen (term_into_fix_integer ti) r6 fun index r7 =>
  dbind (dec r7) fun tu r8 =>
  dthen (term_into_fix_integer tu) r8 fun uniq r9 =>
  dbind (decode_elements dec num_free r9) fun vars r10 =>
  .ok (.internalFunOld module p.1 p.2.1 p.2.2.1 p.2.2.2 vars index uniq) r10

/-- `decode_new_fun_ext` (`InternalFun::New`); the leading `u32` size field
is read and ignored. -/
def decode_new_fun_ext (dec : List Nat → DRes Term) (input : List Nat) :
    DRes Term :=
  dbind (read_u32 input) fun _size r1 =>
  dbind (read_u8 r1) fun arity r2 =>
  dbind (read_exact 16 r2) fun uniq r3 =>
  dbind (read_u32 r3) fun index r4 =>
  dbind (read_u32 r4) fun num_free r5 =>
  dbind (dec r5) fun tm r6 =>
  dthen (term_into_atom tm) r6 fun module r7 =>
  dbind (dec r7) fun toi r8 =>
  dthen (term_into_fix_integer toi) r8 fun old_index r9 =>
  dbind (dec r9) fun tou r10 =>
  dthen (term_into_fix_integer tou) r10 fun old_uniq r11 =>
  dbind (dec r11) fun tp r12 =>
  dthen (term_into_pid tp) r12 fun p r13 =>
  dbind (decode_elements dec num_free r13) fun vars r14 =>
  .ok (.internalFunNew module arity p.1 p.2.1 p.2.2.1 p.2.2.2 vars index uniq
        old_index old_uniq) r14

/-- `decode_new_float_ext`: eight big-endian bytes form the bit pattern;
non-finite values are rejected. -/
def decode_new_float_ext (input : List Nat) : DRes Term :=
  dbind (read_exact 8 input) fun bs r =>
  if float_finite (be_val bs) then .ok (.float (be_val bs)) r
  else .err .nonFiniteFloat

/-- `decode_float_ext`: 31 bytes, UTF-8 checked, NUL padding trimmed, parsed
as an `f32` (the parameter `pf`), then checked finite. -/
def decode_float_ext (pf : PF) (input : List Nat) : DRes Term :=
  dbind (read_exact 31 input) fun buf r =>
  if utf8_valid buf then
    match pf (drop_trailing_zeros buf) with
    | none => .err .ioError
    | some bits =>
      if float_finite bits then .ok (.float bits) r else .err .nonFiniteFloat
  else .err .ioError

/-- `decode_small_integer_ext`: one unsigned byte. -/
def decode_small_integer_ext (input : List Nat) : DRes Term :=
  dbind (read_u8 input) fun b r => .ok (.fixInteger (b : Int)) r

/-- `decode_integer_ext`: a big-endian `i32`. -/
def decode_integer_ext (input : List Nat) : DRes Term :=
  dbind (read_exact 4 input) fun bs r =>
  .ok (.fixInteger (if be_val bs < 2147483648 then (be_val bs : Int)
        else (be_val bs : Int) - 4294967296)) r

/-- `decode_small_big_ext`: `u8` count, sign byte, little-endian magnitude. -/
def decode_small_big_ext (input : List Nat) : DRes Term :=
  dbind (read_u8 input) fun count r1 =>
  dbind (read_u8 r1) fun sign r2 =>
  dbind (read_exact count r2) fun bs r3 =>
  dthen (byte_to_sign sign) r3 fun neg r4 =>
  .ok (.bigInteger (if neg then -(le_val bs : Int) else (le_val bs : Int))) r4

/-- `decode_large_big_ext`: as `decode_small_big_ext` with a `u32` count. -/
def decode_large_big_ext (input : List Nat) : DRes Term :=
  dbind (read_u32 input) fun count r1 =>
  dbind (read_u8 r1) fun sign r2 =>
  dbind (read_exact count r2) fun bs r3 =>
  dthen (byte_to_sign sign) r3 fun neg r4 =>
  .ok (.bigInteger (if neg then -(le_val bs : Int) else (le_val bs : Int))) r4

/-- `decode_atom_ext`: `u16` length then bytes accepted when valid UTF-8
(the source's stated simplification of Latin-1 handling). -/
def decode_atom_ext (input : List Nat) : DRes Term :=
  dbind (read_u16 input) fun len r1 =>
  dbind (read_exact len r1) fun buf r2 =>
  if utf8_valid buf then .ok (.atom buf) r2 else .err .ioError

/-- `decode_small_atom_ext`. -/
def decode_small_atom_ext (input : List Nat) : DRes Term :=
  dbind (read_u8 input) fun len r1 =>
  dbind (read_exact len r1) fun buf r2 =>
  if utf8_valid buf then .ok (.atom buf) r2 else .err .ioError

/-- `decode_atom_utf8_ext`. -/
def decode_atom_utf8_ext (input : List Nat) : DRes Term :=
  dbind (read_u16 input) fun len r1 =>
  dbind (read_exact len r1) fun buf r2 =>
  if utf8_valid buf then .ok (.atom buf) r2 else .err .ioError

/-- `decode_small_atom_utf8_ext`. -/
def decode_small_atom_utf8_ext (input : List Nat) : DRes Term :=
  dbind (read_u8 input) fun len r1 =>
  dbind (read_exact len r1) fun buf r2 =>
  if utf8_valid buf then .ok (.atom buf) r2 else .err .ioError

/-- `decode_term_with_tag`: tag dispatch.  Tag 82 (`ATOM_CACHE_REF`) is
`unimplemented!()`, an abort; unrecognized tags are `UnknownTag` errors. -/
def decode_term_with_tag (pf : PF) (dec : List Nat → DRes Term) (tag : Nat)
    (input : List Nat) : DRes Term :=
  match tag with
  | 70 => decode_new_float_ext input
  | 77 => decode_bit_binary_ext input
  | 82 => .aborted .unimplementedTag
  | 97 => decode_small_integer_ext input
  | 98 => decode_integer_ext input
  | 99 => decode_float_ext pf input
  | 100 => decode_atom_ext input
  | 101 => decode_reference_ext dec input
  | 102 => decode_port_ext dec input
  | 103 => decode_pid_ext dec input
  | 104 => decode_small_tuple_ext dec input
  | 105 => decode_large_tuple_ext dec input
  | 106 => decode_nil_ext input
  | 107 => decode_string_ext input
  | 108 => decode_list_ext dec input
  | 109 => decode_binary_ext input
  | 110 => decode_small_big_ext input
  | 111 => decode_large_big_ext input
  | 112 => decode_new_fun_ext dec input
  | 113 => decode_export_ext dec input
  | 114 => decode_new_reference_ext dec input
  | 115 => decode_small_atom_ext input
  | 116 => decode_map_ext dec input
  | 117 => decode_fun_ext dec input
  | 118 => decode_atom_utf8_ext input
  | 119 => decode_small_atom_utf8_ext input
  | _ => .err (.unknownTag tag)

/-- `decode_term`: one tag byte then its payload.  The fuel bounds the
nesting depth; since each nested term begins strictly inside the current
payload, `input.length + 1` fuel always suffices (proved below). -/
def decode_term (pf : PF) : Nat → List Nat → DRes Term
  | 0, _ => .outOfFuel
  | f + 1, input =>
    dbind (read_u8 input) fun tag rest =>
    decode_term_with_tag pf (decode_term pf f) tag rest

/-- Outcome of the public `decode` entry point (the remaining input of a
`DRes` is dropped: the decoder consumes its reader). -/
inductive DecodeOutcome where
  | ok (t : Term)
  | err (e : DecodeError)
  | aborted (c : AbortCause)
  | outOfFuel

/-- Forgets the remaining input. -/
def to_outcome : DRes Term → DecodeOutcome
  | .ok t _ => .ok t
  | .err e => .err e
  | .aborted c => .aborted c
  | .outOfFuel => .outOfFuel

/-- `decode_compressed_term`: a `u32` uncompressed-size field (read and
ignored — it is advisory), then the rest of the input is inflated and a
single term (no version byte) is decoded from the inflated stream.  An
inflater failure is an I/O error. -/
def decode_compressed_term (inflate : List Nat → Option (List Nat)) (pf : PF)
    (input : List Nat) : DecodeOutcome :=
  match read_exact 4 input with
  | .ok _ rest =>
    match inflate rest with
    | none => .err .ioError
    | some ds => to_outcome (decode_term pf (ds.length + 1) ds)
  | _ => .err .ioError

/-- `Decoder::decode`: the version byte must be 131; tag 80 enters the
compressed envelope, tag 68 (`DISTRIBUTION_HEADER`) is `unimplemented!()`
(an abort), and any other tag decodes one term. -/
def decode (inflate : List Nat → Option (List Nat)) (pf : PF)
    (input : List Nat) : DecodeOutcome :=
  match input with
  | [] => .err .ioError
  | version :: rest =>
    if version = 131 then
      match rest with
      | [] => .err .ioError
      | tag :: r2 =>
        if tag = 80 then decode_compressed_term inflate pf r2
        else if tag = 68 then .aborted .unimplementedTag
        else to_outcome (decode_term_with_tag pf
              (decode_term pf (r2.length + 1)) tag r2)
    else .err (.unsupportedVersion version)

/-- Outcome of running a piece of the encoder: the bytes written so far are
kept even when an error is returned or the encoder aborts, because the
sink receives them before the failure. -/
inductive ERes where
  | ok (out : List Nat)
  | failed (out : List Nat) (e : EncodeError)
  | halted (out : List Nat) (c : AbortCause)

/-- Sequencing of encoder steps: output accumulates; errors and aborts keep
the bytes already written. -/
def eseq : ERes → ERes → ERes
  | .ok xs, .ok ys => .ok (xs ++ ys)
  | .ok xs, .failed ys e => .failed (xs ++ ys) e
  | .ok xs, .halted ys c => .halted (xs ++ ys) c
  | .failed xs e, _ => .failed xs e
  | .halted xs c, _ => .halted xs c

/-- The `to_byte` closure of `encode_list`: a `FixInteger` whose value is
below `0x100` is cast with `as u8` (two's-complement truncation); note the
source places no lower bound on the value. -/
def to_byte : Term → Option Nat
  | .fixInteger i => if i < 256 then some (Int.toNat (i % 256)) else none
  | _ => none

/-- `encode_fix_integer`: `SMALL_INTEGER_EXT` for `0..=255`, else
`INTEGER_EXT` with the two's-complement big-endian bytes. -/
def encode_fix_integer_bytes (v : Int) : List Nat :=
  if 0 ≤ v ∧ v ≤ 255 then [97, v.toNat]
  else 98 :: u32be (v % 4294967296).toNat

/-- `encode_atom`: a name longer than 65535 bytes is rejected; all-ASCII
names take `ATOM_EXT`, others `ATOM_UTF8_EXT`. -/
def encode_atom (name : List Nat) : ERes :=
  if 65535 < name.length then .failed [] (.tooLongAtomName name)
  else .ok ((if name.all (fun b => b < 128) then 100 else 118)
        :: (u16be name.length ++ name))

/-- `encode_pid` (also used by the fun encoders; writes the `PID_EXT` tag). -/
def encode_pid (node : List Nat) (id serial creation : Nat) : ERes :=
  eseq (.ok [103])
    (eseq (encode_atom node) (.ok (u32be id ++ u32be serial ++ [creation])))

/-- `encode_port`. -/
def encode_port (node : List Nat) (id creation : Nat) : ERes :=
  eseq (.ok [102]) (eseq (encode_atom node) (.ok (u32be id ++ [creation])))

/-- `encode_reference`: the `NEW_REFERENCE_EXT` tag byte is written before
the id-length check, so `TooLargeReferenceId` is returned with the tag
already emitted. -/
def encode_reference (node : List Nat) (id : List Nat) (creation : Nat) : ERes :=
  eseq (.ok [114])
    (if 65535 < id.length then .failed [] (.tooLargeReferenceId node id creation)
     else eseq (.ok (u16be id.length))
       (eseq (encode_atom node)
         (.ok (creation :: id.foldr (fun x acc => u32be x ++ acc) []))))

/-- `encode_bit_binary`: header, then all but the last byte verbatim and the
last byte left-shifted by `8 - tail_bits_size` (with the same debug-mode
overflow aborts as the decoder's inverse shift). -/
def encode_bit_binary (bytes : List Nat) (tail_bits : Nat) : ERes :=
  eseq (.ok (77 :: (u32be bytes.length ++ [tail_bits])))
    (if bytes.isEmpty then .ok []
     else if 8 < tail_bits then .halted [] .subOverflow
     else if tail_bits = 0 then .halted [] .shlOverflow
     else .ok (bytes.dropLast ++ [bytes.getLast?.getD 0 * 2 ^ (8 - tail_bits) % 256]))

/-- Minimal little-endian magnitude bytes (`BigInt::to_bytes_le`), with the
`num` crate's convention that zero yields `[0]`. -/
def nat_bytes_le_aux : Nat → Nat → List Nat
  | 0, _ => []
  | fuel + 1, n => if n = 0 then [] else n % 256 :: nat_bytes_le_aux fuel (n / 256)

/-- Little-endian magnitude of a natural number; zero is `[0]`. -/
def nat_bytes_le (n : Nat) : List Nat :=
  if n = 0 then [0] else nat_bytes_le_aux n n

/-- `encode_big_integer`: `SMALL_BIG_EXT` for at most 255 magnitude bytes,
`LARGE_BIG_EXT` up to `u32::MAX`, else `TooLargeInteger`; sign byte 1 for
negative values. -/
def encode_big_integer (v : Int) : ERes :=
  let bytes := nat_bytes_le v.natAbs
  let sign : Nat := if v < 0 then 1 else 0
  if bytes.length ≤ 255 then .ok (110 :: bytes.length :: sign :: bytes)
  else if bytes.length ≤ 4294967295 then
    .ok (111 :: (u32be bytes.length ++ sign :: bytes))
  else .failed [] (.tooLargeInteger v)

mutual

/-- `encode_term`: per-variant dispatch of the encoder. -/
def encode_term : Term → ERes
  | .atom name => encode_atom name
  | .fixInteger v => .ok (encode_fix_integer_bytes v)
  | .bigInteger v => encode_big_integer v
  | .float bits => .ok (70 :: u64be bits)
  | .pid node id serial creation => encode_pid node id serial creation
  | .port node id creation => encode_port node id creation
  | .reference node id creation => encode_reference node id creation
  | .externalFun module function arity =>
    eseq (.ok [113])
      (eseq (encode_atom module)
        (eseq (encode_atom function)
          (.ok (encode_fix_integer_bytes ((arity % 256 : Nat) : Int)))))
  | .internalFunOld module pnode pid pserial pcreation vars index uniq =>
    eseq (.ok (117 :: u32be vars.length))
      (eseq (encode_pid pnode pid pserial pcreation)
        (eseq (encode_atom module)
          (eseq (.ok (encode_fix_integer_bytes index))
            (eseq (.ok (encode_fix_integer_bytes uniq)) (encode_seq vars)))))
  | .internalFunNew module arity pnode pid pserial pcreation vars index uniq
      oldIndex oldUniq =>
    match eseq (.ok ((arity :: uniq) ++ (u32be index ++ u32be vars.length)))
        (eseq (encode_atom module)
          (eseq (.ok (encode_fix_integer_bytes oldIndex))
            (eseq (.ok (encode_fix_integer_bytes oldUniq))
              (eseq (encode_pid pnode pid pserial pcreation)
                (encode_seq vars))))) with
    | .ok body =>
      if 4294967295 < 4 + body.length % 4294967296 then .halted [112] .addOverflow
      else .ok (112 :: (u32be (4 + body.length % 4294967296) ++ body))
    | .failed _ e => .failed [112] e
    | .halted _ c => .halted [112] c
  | .binary bytes => .ok (109 :: (u32be bytes.length ++ bytes))
  | .bitBinary bytes tailBits => encode_bit_binary bytes tailBits
  | .list es => encode_list es
  | .improperList es last =>
    eseq (.ok (108 :: u32be es.length))
      (eseq (encode_seq es) (encode_term last))
  | .tuple es =>
    eseq (.ok (if es.length < 256 then [104, es.length] else 105 :: u32be es.length))
      (encode_seq es)
  | .map ps => eseq (.ok (116 :: u32be ps.length)) (encode_pairs ps)

/-- `encode_list`: the `STRING_EXT` form when the list is nonempty, at most
65535 long, and `to_byte` accepts every element; otherwise the `LIST_EXT`
header, the elements, and a `NIL_EXT` tail (just `NIL_EXT` when empty). -/
def encode_list (es : List Term) : ERes :=
  if !es.isEmpty && decide (es.length ≤ 65535)
      && es.all (fun e => (to_byte e).isSome) then
    .ok (107 :: (u16be es.length ++ es.map (fun e => (to_byte e).getD 0)))
  else if es.isEmpty then .ok [106]
  else eseq (.ok (108 :: u32be es.length)) (eseq (encode_seq es) (.ok [106]))

/-- Sequential encoding of a list of terms. -/
def encode_seq : List Term → ERes
  | [] => .ok []
  | t :: ts => eseq (encode_term t) (encode_seq ts)

/-- Sequential encoding of map entries in stored order. -/
def encode_pairs : List (Term × Term) → ERes
  | [] => .ok []
  | (k, v) :: ps => eseq (encode_term k) (eseq (encode_term v) (encode_pairs ps))

end

/-- `Encoder::encode`: the version byte then one term. -/
def encode (t : Term) : ERes := eseq (.ok [131]) (encode_term t)

/-- An inflate function that never succeeds (for inputs that are not
compressed, the inflater is irrelevant). -/
def no_inflate : List Nat → Option (List Nat) := fun _ => none

/-- A float parser that never succeeds (for inputs without `FLOAT_EXT`). -/
def no_pf : PF := fun _ => none

/-- The identity inflater: models a compressor pair whose deflate is the
identity, instantiating the round-trip property of zlib. -/
def id_inflate : List Nat → Option (List Nat) := fun bs => some bs

/-- Abort causes reachable while decoding: the `unimplemented!()` arms and
the two arithmetic aborts of `decode_bit_binary_ext` (the remaining causes
belong to the encoder only). -/
def decoder_cause (c : AbortCause) : Prop :=
  c = .unimplementedTag ∨ c = .subOverflow ∨ c = .shrOverflow

/-- Sanity of a decoding step: it is not fuel exhaustion, and if it is an
abort, the cause is one of the decoder's. -/
def dres_sane {α : Type} : DRes α → Prop
  | .outOfFuel => False
  | .aborted c => decoder_cause c
  | _ => True

/-- Sanity of a top-level decode outcome. -/
def outcome_sane : DecodeOutcome → Prop
  | .outOfFuel => False
  | .aborted c => decoder_cause c
  | _ => True

/-- A term decoder that, when it succeeds, consumes at least one byte (the
tag byte). -/
def consumes (dec : List Nat → DRes Term) : Prop :=
  ∀ i t r, dec i = .ok t r → r.length < i.length

/-! ### Model validation: the concrete end-to-end scenarios of the spec
(section 8) hold in the embedding, in both directions. -/

/-- Scenario A: `FixInteger 0` is `83 61 00`. -/
theorem scenario_fix_zero :
    encode (.fixInteger 0) = .ok [131, 97, 0] ∧
    decode no_inflate no_pf [131, 97, 0] = .ok (.fixInteger 0) := by
  exact ⟨by simp [encode, encode_term, encode_fix_integer_bytes, eseq], rfl⟩

/-- Scenario B: `FixInteger 1000` is `83 62 00 00 03 E8`. -/
theorem scenario_fix_thousand :
    encode (.fixInteger 1000) = .ok [131, 98, 0, 0, 3, 232] ∧
    decode no_inflate no_pf [131, 98, 0, 0, 3, 232] = .ok (.fixInteger 1000) := by
  refine ⟨?_, rfl⟩
  simp [encode, encode_term, encode_fix_integer_bytes, eseq, u32be]

/-- Scenario C: the ASCII atom `ok` is `83 64 00 02 6F 6B`. -/
theorem scenario_atom_ok :
    encode (.atom [111, 107]) = .ok [131, 100, 0, 2, 111, 107] ∧
    decode no_inflate no_pf [131, 100, 0, 2, 111, 107] = .ok (.atom [111, 107]) := by
  refine ⟨?_, rfl⟩
  simp [encode, encode_term, encode_atom, eseq, u16be]

/-- Scenario D: the empty list is `83 6A`. -/
theorem scenario_nil :
    encode (.list []) = .ok [131, 106] ∧
    decode no_inflate no_pf [131, 106] = .ok (.list []) := by
  exact ⟨by simp [encode, encode_term, encode_list, eseq], rfl⟩

/-- Scenario E: `List [1, 2, 3]` takes the STRING form `83 6B 00 03 01 02 03`. -/
theorem scenario_byte_list :
    encode (.list [.fixInteger 1, .fixInteger 2, .fixInteger 3])
      = .ok [131, 107, 0, 3, 1, 2, 3] ∧
    decode no_inflate no_pf [131, 107, 0, 3, 1, 2, 3]
      = .ok (.list [.fixInteger 1, .fixInteger 2, .fixInteger 3]) := by
  refine ⟨?_, rfl⟩
  simp [encode, encode_term, encode_list, eseq, to_byte, u16be]

/-- Scenario F: `Tuple (Atom ok, FixInteger 42)` is
`83 68 02 64 00 02 6F 6B 61 2A`. -/
theorem scenario_tuple :
    encode (.tuple [.atom [111, 107], .fixInteger 42])
      = .ok [131, 104, 2, 100, 0, 2, 111, 107, 97, 42] ∧
    decode no_inflate no_pf [131, 104, 2, 100, 0, 2, 111, 107, 97, 42]
      = .ok (.tuple [.atom [111, 107], .fixInteger 42]) := by
  refine ⟨?_, rfl⟩
  simp [encode, encode_term, encode_seq, encode_list, encode_atom,
    encode_fix_integer_bytes, eseq, u16be]

/-! ### Inversion helpers -/

/-- Inversion of a successful `dbind`. -/
theorem dbind_eq_ok {α β : Type} {x : DRes α} {f : α → List Nat → DRes β}
    {b : β} {r : List Nat} (h : dbind x f = .ok b r) :
    ∃ a m, x = .ok a m ∧ f a m = .ok b r := by
  cases x with
  | ok a m => exact ⟨a, m, rfl, h⟩
  | err e => exact absurd h (by simp [dbind])
  | aborted c => exact absurd h (by simp [dbind])
  | outOfFuel => exact absurd h (by simp [dbind])

/-- Inversion of a successful `dthen`. -/
theorem dthen_eq_ok {α β : Type} {x : Except DecodeError α} {rest : List Nat}
    {f : α → List Nat → DRes β} {b : β} {r : List Nat}
    (h : dthen x rest f = .ok b r) : ∃ a, x = .ok a ∧ f a rest = .ok b r := by
  cases x with
  | ok a => exact ⟨a, rfl, h⟩
  | error e => exact absurd h (by simp [dthen])

/-- Reading the four bytes written by `u32be` recovers the value. -/
theorem read_u32_u32be (n : Nat) (bs : List Nat) (h : n < 4294967296) :
    read_u32 (u32be n ++ bs) = .ok n bs := by
  simp only [read_u32, u32be, read_exact, dbind, be_val, List.cons_append,
    List.nil_append, List.length_cons, List.take, List.drop, List.foldl]
  rw [if_pos (by omega)]
  simp only [List.take, List.drop, List.foldl, DRes.ok.injEq]
  constructor
  · omega
  · rfl

/-! ### Claim C6: version byte check -/

/-- Claim C6: `decode` reads one version byte first, and for every input
whose first byte is not 131 it returns `UnsupportedVersion` carrying the
observed byte, without attempting to decode a term. -/
theorem decode_rejects_bad_version (inflate : List Nat → Option (List Nat))
    (pf : PF) (b : Nat) (bs : List Nat) (h : b ≠ 131) :
    decode inflate pf (b :: bs) = .err (.unsupportedVersion b) := by
  simp [decode, h]

/-- Witness for C6 at the concrete first byte 130. -/
theorem decode_rejects_bad_version_witness :
    (130 : Nat) ≠ 131 ∧
    decode no_inflate no_pf [130] = .err (.unsupportedVersion 130) :=
  ⟨by decide, decode_rejects_bad_version no_inflate no_pf 130 [] (by decide)⟩

/-! ### Claim C10: reference encoding is not atomic -/

/-- Claim C10: encoding a `Reference` whose id has more than 65535 limbs
returns `TooLargeReferenceId` only after the `NEW_REFERENCE_EXT` tag byte
(114) has been written to the sink: exactly one byte is emitted. -/
theorem encode_reference_tag_then_error (node : List Nat) (id : List Nat)
    (creation : Nat) (h : 65535 < id.length) :
    encode_term (.reference node id creation)
      = .failed [114] (.tooLargeReferenceId node id creation) := by
  simp [encode_term, encode_reference, eseq, h]

/-- Witness for C10 with a 65536-limb id. -/
theorem encode_reference_tag_then_error_witness :
    encode_term (.reference [] (List.replicate 65536 0) 0)
      = .failed [114] (.tooLargeReferenceId [] (List.replicate 65536 0) 0) :=
  encode_reference_tag_then_error [] (List.replicate 65536 0) 0
    (by rw [List.length_replicate]; omega)

/-! ### Claim C4: the BitBinary tail-bits invariant -/

/-- Counterexample to C4 as stated: a `BIT_BINARY` payload with size 0 and
tail-bits byte 9 decodes successfully to a `BitBinary` whose
`tail_bits_size` is 9, outside `1..=8`. -/
theorem bit_binary_unchecked_tail_bits :
    decode no_inflate no_pf [131, 77, 0, 0, 0, 0, 9] = .ok (.bitBinary [] 9) ∧
    ¬ ((9 : Nat) ≤ 8) := ⟨rfl, by decide⟩

/-- Claim C4 (amended): every `BitBinary` produced by decoding a
`BIT_BINARY` payload with a nonempty byte sequence has `tail_bits_size`
in `1..=8` (out-of-range bytes abort on the shift arithmetic instead);
with an empty sequence the tail-bits byte is stored unchecked. -/
theorem bit_binary_nonempty_tail_range (input : List Nat) (bytes : List Nat)
    (t : Nat) (rest : List Nat)
    (h : decode_bit_binary_ext input = .ok (.bitBinary bytes t) rest)
    (hne : bytes ≠ []) : 1 ≤ t ∧ t ≤ 8 := by
  unfold decode_bit_binary_ext at h
  obtain ⟨size, r1, h1, h⟩ := dbind_eq_ok h
  obtain ⟨tail, r2, h2, h⟩ := dbind_eq_ok h
  obtain ⟨buf, r3, h3, h⟩ := dbind_eq_ok h
  split at h
  · rename_i hempty
    simp only [DRes.ok.injEq, Term.bitBinary.injEq] at h
    obtain ⟨⟨hb, _⟩, _⟩ := h
    subst hb
    simp [List.isEmpty_iff] at hempty
    exact absurd hempty hne
  · split at h
    · exact absurd h (by simp)
    · split at h
      · exact absurd h (by simp)
      · rename_i h8 h0
        simp only [DRes.ok.injEq, Term.bitBinary.injEq] at h
        obtain ⟨⟨_, ht⟩, _⟩ := h
        subst ht
        omega

/-- Witness for the amended C4: one payload byte, tail-bits byte 5. -/
theorem bit_binary_nonempty_tail_range_witness : 1 ≤ 5 ∧ 5 ≤ 8 :=
  bit_binary_nonempty_tail_range [0, 0, 0, 1, 5, 255] [31] 5 [] (by rfl)
    (by decide)

/-! ### Claim C5: zero-element improper lists -/

/-- Counterexample to C5 as stated: decoding a `LIST` payload with element
count 0 and a non-nil tail produces an `ImproperList` with zero leading
elements. -/
theorem list_ext_empty_improper :
    decode no_inflate no_pf [131, 108, 0, 0, 0, 0, 97, 5]
      = .ok (.improperList [] (.fixInteger 5)) := rfl

/-- Claim C5 (amended): the decoder does not enforce the at-least-one-element
invariant: a `LIST` payload with count 0 whose tail decodes to a non-nil
term yields an `ImproperList` with zero leading elements. -/
theorem list_ext_zero_count_nonnil_tail (dec : List Nat → DRes Term)
    (bs : List Nat) (t : Term) (rest : List Nat)
    (h : dec bs = .ok t rest) (hn : is_nil_list t = false) :
    decode_list_ext dec (0 :: 0 :: 0 :: 0 :: bs) = .ok (.improperList [] t) rest := by
  simp [decode_list_ext, read_u32, read_exact, dbind, be_val,
    decode_elements, h, hn, Nat.le_add_right 4 bs.length]

/-- Witness for the amended C5: count 0 with tail `FixInteger 5`. -/
theorem list_ext_zero_count_nonnil_tail_witness :
    decode_list_ext (decode_term no_pf 1) [0, 0, 0, 0, 97, 5]
      = .ok (.improperList [] (.fixInteger 5)) [] :=
  list_ext_zero_count_nonnil_tail (decode_term no_pf 1) [97, 5]
    (.fixInteger 5) [] (by rfl) (by rfl)

/-! ### Claim C7: LIST decoding -/

/-- Claim C7: decoding a `LIST` (tag 108) payload reads the `u32` count,
decodes `count` element terms, then one more term as the tail; a nil tail
yields a proper `List` of the elements, any non-nil tail an `ImproperList`
with that tail. -/
theorem list_ext_spec (dec : List Nat → DRes Term) (count : Nat)
    (bs : List Nat) (es : List Term) (r1 : List Nat) (t : Term)
    (r2 : List Nat) (hcount : count < 4294967296)
    (h1 : decode_elements dec count bs = .ok es r1)
    (h2 : dec r1 = .ok t r2) :
    decode_list_ext dec (u32be count ++ bs)
      = .ok (if is_nil_list t then .list es else .improperList es t) r2 := by
  unfold decode_list_ext
  rw [read_u32_u32be count bs hcount]
  simp only [dbind, h1, h2]
  split <;> rfl

/-- Witness for C7: count 1, element `FixInteger 7`, nil tail. -/
theorem list_ext_spec_witness :
    decode_list_ext (decode_term no_pf 2) (u32be 1 ++ [97, 7, 106])
      = .ok (.list [.fixInteger 7]) [] := by
  have h := list_ext_spec (decode_term no_pf 2) 1 [97, 7, 106]
    [.fixInteger 7] [106] (.list []) [] (by decide) (by rfl) (by rfl)
  simpa [is_nil_list] using h

/-! ### Claim C8: EXPORT arity checking -/

/-- Claim C8: in `decode_export_ext` the arity field must decode to a
`FixInteger`: any other term yields `UnexpectedType` with expected
`"FixInteger"`, a `FixInteger` outside `0..=255` yields `OutOfRange`, and
every value in `0..=255` (255 included) is accepted. -/
theorem export_ext_spec (dec : List Nat → DRes Term) (bs : List Nat)
    (m : List Nat) (r1 : List Nat) (f : List Nat) (r2 : List Nat)
    (t : Term) (r3 : List Nat)
    (hm : dec bs = .ok (.atom m) r1)
    (hf : dec r1 = .ok (.atom f) r2)
    (ht : dec r2 = .ok t r3) :
    decode_export_ext dec bs =
      match t with
      | .fixInteger n =>
        if 0 ≤ n ∧ n ≤ 255 then .ok (.externalFun m f n.toNat) r3
        else .err (.outOfRange n 0 255)
      | _ => .err (.unexpectedType t "FixInteger") := by
  unfold decode_export_ext
  rw [hm]
  simp only [dbind, dthen, term_into_atom]
  rw [hf]
  simp only [dbind, dthen, term_into_atom]
  simp only [ht, dbind]
  cases t
  all_goals try rfl
  rename_i n
  simp only [term_into_ranged_integer, term_into_fix_integer]
  by_cases hr : 0 ≤ n ∧ n ≤ 255
  · rw [if_pos hr, if_pos hr]
  · rw [if_neg hr, if_neg hr]

/-- Witness for C8 at the inclusive upper bound: arity term 255 is
accepted. -/
theorem export_ext_spec_witness :
    decode_export_ext (decode_term no_pf 2)
        [100, 0, 1, 109, 100, 0, 1, 102, 97, 255]
      = .ok (.externalFun [109] [102] 255) [] := by
  have h := export_ext_spec (decode_term no_pf 2)
    [100, 0, 1, 109, 100, 0, 1, 102, 97, 255] [109]
    [100, 0, 1, 102, 97, 255] [102] [97, 255] (.fixInteger 255) []
    (by rfl) (by rfl) (by rfl)
  simpa using h

/-! ### Claims C1, C2, C9: the STRING encoding of lists with negative
elements -/

/-- Claim C2 (code bug): `encode_list`'s `to_byte` only checks
`value < 0x100`, so the list `[FixInteger (-1)]` is emitted in STRING form
(tag 107) with the byte 255, although -1 is not in `0..=255`. -/
theorem encode_list_emits_string_for_negative :
    encode_term (.list [.fixInteger (-1)]) = .ok [107, 0, 1, 255] ∧
    ¬ ((0 : Int) ≤ -1 ∧ (-1 : Int) ≤ 255) := by
  constructor
  · simp [encode_term, encode_list, to_byte, eseq, u16be]
  · decide

/-- Claim C1 (code bug): the round trip fails on `List [FixInteger (-1)]`:
the encoder accepts it (STRING form, byte 255), but decoding the produced
bytes yields `List [FixInteger 255]`, which is not structurally equal to
the original term. -/
theorem round_trip_fails_on_negative_byte_list :
    encode (.list [.fixInteger (-1)]) = .ok [131, 107, 0, 1, 255] ∧
    decode no_inflate no_pf [131, 107, 0, 1, 255]
      = .ok (.list [.fixInteger 255]) ∧
    Term.list [.fixInteger 255] ≠ Term.list [.fixInteger (-1)] := by
  refine ⟨?_, rfl, by simp⟩
  simp [encode, encode_term, encode_list, eseq, to_byte, u16be]

/-- Claim C9 (code bug): wrapping the body of
`encode (List [FixInteger (-1)])` in the compressed envelope (with an
arbitrary advisory size, here 9, and the inflater modelled by the identity
compressor pair) decodes to `List [FixInteger 255]`, not to the original
term. -/
theorem compressed_round_trip_fails_on_negative_byte_list :
    encode (.list [.fixInteger (-1)]) = .ok (131 :: [107, 0, 1, 255]) ∧
    decode id_inflate no_pf (131 :: 80 :: 0 :: 0 :: 0 :: 9 :: [107, 0, 1, 255])
      = .ok (.list [.fixInteger 255]) ∧
    Term.list [.fixInteger 255] ≠ Term.list [.fixInteger (-1)] := by
  refine ⟨?_, rfl, by simp⟩
  simp [encode, encode_term, encode_list, eseq, to_byte, u16be]

/-! ### Totality machinery for claim C3 -/

/-- Sanity is preserved by sequencing. -/
theorem dres_sane_dbind {α β : Type} {x : DRes α} {f : α → List Nat → DRes β}
    (hx : dres_sane x) (hf : ∀ a m, x = .ok a m → dres_sane (f a m)) :
    dres_sane (dbind x f) := by
  cases x with
  | ok a m => exact hf a m rfl
  | err e => trivial
  | aborted c => exact hx
  | outOfFuel => exact hx

/-- Sanity is preserved by lifting a `Result`. -/
theorem dres_sane_dthen {α β : Type} {x : Except DecodeError α}
    {rest : List Nat} {f : α → List Nat → DRes β}
    (hf : ∀ a, x = .ok a → dres_sane (f a rest)) :
    dres_sane (dthen x rest f) := by
  cases x with
  | ok a => exact hf a rfl
  | error e => trivial

theorem read_u8_sane (i : List Nat) : dres_sane (read_u8 i) := by
  cases i <;> trivial

theorem read_u8_ok {i : List Nat} {b : Nat} {r : List Nat}
    (h : read_u8 i = .ok b r) : r.length < i.length := by
  cases i with
  | nil => exact DRes.noConfusion h
  | cons x xs => cases h; simp

theorem read_exact_sane (n : Nat) (i : List Nat) : dres_sane (read_exact n i) := by
  unfold read_exact
  split <;> trivial

theorem read_exact_ok {n : Nat} {i bs r : List Nat}
    (h : read_exact n i = .ok bs r) : r.length ≤ i.length := by
  unfold read_exact at h
  split at h
  · cases h; simp
  · exact DRes.noConfusion h

theorem read_u16_sane (i : List Nat) : dres_sane (read_u16 i) :=
  dres_sane_dbind (read_exact_sane 2 i) (fun _ _ _ => trivial)

theorem read_u16_ok {i : List Nat} {v : Nat} {r : List Nat}
    (h : read_u16 i = .ok v r) : r.length ≤ i.length := by
  obtain ⟨bs, m, h1, h2⟩ := dbind_eq_ok h
  cases h2
  exact read_exact_ok h1

theorem read_u32_sane (i : List Nat) : dres_sane (read_u32 i) :=
  dres_sane_dbind (read_exact_sane 4 i) (fun _ _ _ => trivial)

theorem read_u32_ok {i : List Nat} {v : Nat} {r : List Nat}
    (h : read_u32 i = .ok v r) : r.length ≤ i.length := by
  obtain ⟨bs, m, h1, h2⟩ := dbind_eq_ok h
  cases h2
  exact read_exact_ok h1

theorem read_u32_list_sane : ∀ (n : Nat) (i : List Nat),
    dres_sane (read_u32_list n i) := by
  intro n
  induction n with
  | zero => intro i; trivial
  | succ n ih =>
    intro i
    unfold read_u32_list
    exact dres_sane_dbind (read_u32_sane i) fun x r1 _ =>
      dres_sane_dbind (ih r1) fun xs r2 _ => trivial

theorem read_u32_list_ok : ∀ {n : Nat} {i : List Nat} {xs r : List Nat},
    read_u32_list n i = .ok xs r → r.length ≤ i.length := by
  intro n
  induction n with
  | zero => intro i xs r h; cases h; exact le_rfl
  | succ n ih =>
    intro i xs r h
    unfold read_u32_list at h
    obtain ⟨x, r1, h1, h⟩ := dbind_eq_ok h
    obtain ⟨ys, r2, h2, h⟩ := dbind_eq_ok h
    cases h
    exact le_trans (ih h2) (read_u32_ok h1)

theorem decode_elements_sane {dec : List Nat → DRes Term} (hc : consumes dec) :
    ∀ (n : Nat) (i : List Nat),
    (∀ s, s.length ≤ i.length → dres_sane (dec s)) →
    dres_sane (decode_elements dec n i) := by
  intro n
  induction n with
  | zero => intro i _; trivial
  | succ n ih =>
    intro i hs
    unfold decode_elements
    apply dres_sane_dbind (hs i le_rfl)
    intro t r1 h1
    apply dres_sane_dbind
      (ih r1 fun s hsl => hs s (le_trans hsl (le_of_lt (hc _ _ _ h1))))
    intro ts r2 _
    trivial

theorem decode_elements_ok {dec : List Nat → DRes Term} (hc : consumes dec) :
    ∀ {n : Nat} {i : List Nat} {es : List Term} {r : List Nat},
    decode_elements dec n i = .ok es r → r.length ≤ i.length := by
  intro n
  induction n with
  | zero => intro i es r h; cases h; exact le_rfl
  | succ n ih =>
    intro i es r h
    unfold decode_elements at h
    obtain ⟨t, r1, h1, h⟩ := dbind_eq_ok h
    obtain ⟨ts, r2, h2, h⟩ := dbind_eq_ok h
    cases h
    exact le_trans (ih h2) (le_of_lt (hc _ _ _ h1))

theorem decode_pairs_sane {dec : List Nat → DRes Term} (hc : consumes dec) :
    ∀ (n : Nat) (i : List Nat),
    (∀ s, s.length ≤ i.length → dres_sane (dec s)) →
    dres_sane (decode_pairs dec n i) := by
  intro n
  induction n with
  | zero => intro i _; trivial
  | succ n ih =>
    intro i hs
    unfold decode_pairs
    apply dres_sane_dbind (hs i le_rfl)
    intro k r1 h1
    have hr1 : r1.length < i.length := hc _ _ _ h1
    apply dres_sane_dbind (hs r1 (le_of_lt hr1))
    intro v r2 h2
    have hr2 : r2.length < r1.length := hc _ _ _ h2
    apply dres_sane_dbind (ih r2 fun s hsl => hs s (by omega))
    intro ps r3 _
    trivial

theorem decode_pairs_ok {dec : List Nat → DRes Term} (hc : consumes dec) :
    ∀ {n : Nat} {i : List Nat} {ps : List (Term × Term)} {r : List Nat},
    decode_pairs dec n i = .ok ps r → r.length ≤ i.length := by
  intro n
  induction n with
  | zero => intro i ps r h; cases h; exact le_rfl
  | succ n ih =>
    intro i ps r h
    unfold decode_pairs at h
    obtain ⟨k, r1, h1, h⟩ := dbind_eq_ok h
    obtain ⟨v, r2, h2, h⟩ := dbind_eq_ok h
    obtain ⟨qs, r3, h3, h⟩ := dbind_eq_ok h
    cases h
    have := hc _ _ _ h1
    have := hc _ _ _ h2
    have := ih h3
    omega

theorem decode_nil_ext_sane (i : List Nat) : dres_sane (decode_nil_ext i) :=
  trivial

theorem decode_nil_ext_ok {i : List Nat} {t : Term} {r : List Nat}
    (h : decode_nil_ext i = .ok t r) : r.length ≤ i.length := by
  cases h; exact le_rfl

theorem decode_string_ext_sane (i : List Nat) : dres_sane (decode_string_ext i) := by
  unfold decode_string_ext
  apply dres_sane_dbind (read_u16_sane i)
  intro size r1 _
  apply dres_sane_dbind (read_exact_sane size r1)
  intro bs r2 _
  trivial

theorem decode_string_ext_ok {i : List Nat} {t : Term} {r : List Nat}
    (h : decode_string_ext i = .ok t r) : r.length ≤ i.length := by
  unfold decode_string_ext at h
  obtain ⟨size, r1, h1, h⟩ := dbind_eq_ok h
  obtain ⟨bs, r2, h2, h⟩ := dbind_eq_ok h
  cases h
  exact le_trans (read_exact_ok h2) (read_u16_ok h1)

theorem decode_binary_ext_sane (i : List Nat) : dres_sane (decode_binary_ext i) := by
  unfold decode_binary_ext
  apply dres_sane_dbind (read_u32_sane i)
  intro size r1 _
  apply dres_sane_dbind (read_exact_sane size r1)
  intro bs r2 _
  trivial

theorem decode_binary_ext_ok {i : List Nat} {t : Term} {r : List Nat}
    (h : decode_binary_ext i = .ok t r) : r.length ≤ i.length := by
  unfold decode_binary_ext at h
  obtain ⟨size, r1, h1, h⟩ := dbind_eq_ok h
  obtain ⟨bs, r2, h2, h⟩ := dbind_eq_ok h
  cases h
  exact le_trans (read_exact_ok h2) (read_u32_ok h1)

theorem decode_bit_binary_ext_sane (i : List Nat) :
    dres_sane (decode_bit_binary_ext i) := by
  unfold decode_bit_binary_ext
  apply dres_sane_dbind (read_u32_sane i)
  intro size r1 _
  apply dres_sane_dbind (read_u8_sane r1)
  intro tail r2 _
  apply dres_sane_dbind (read_exact_sane size r2)
  intro buf r3 _
  split_ifs <;> simp [dres_sane, decoder_cause]

theorem decode_bit_binary_ext_ok {i : List Nat} {t : Term} {r : List Nat}
    (h : decode_bit_binary_ext i = .ok t r) : r.length ≤ i.length := by
  unfold decode_bit_binary_ext at h
  obtain ⟨size, r1, h1, h⟩ := dbind_eq_ok h
  obtain ⟨tail, r2, h2, h⟩ := dbind_eq_ok h
  obtain ⟨buf, r3, h3, h⟩ := dbind_eq_ok h
  have hle : r3.length ≤ i.length :=
    le_trans (read_exact_ok h3) (le_trans (le_of_lt (read_u8_ok h2)) (read_u32_ok h1))
  split_ifs at h
  · cases h; exact hle
  · cases h; exact hle

theorem decode_new_float_ext_sane (i : List Nat) :
    dres_sane (decode_new_float_ext i) := by
  unfold decode_new_float_ext
  apply dres_sane_dbind (read_exact_sane 8 i)
  intro bs r _
  split <;> trivial

theorem decode_new_float_ext_ok {i : List Nat} {t : Term} {r : List Nat}
    (h : decode_new_float_ext i = .ok t r) : r.length ≤ i.length := by
  unfold decode_new_float_ext at h
  obtain ⟨bs, r1, h1, h⟩ := dbind_eq_ok h
  split at h
  · cases h; exact read_exact_ok h1
  · exact DRes.noConfusion h

theorem decode_float_ext_sane (pf : PF) (i : List Nat) :
    dres_sane (decode_float_ext pf i) := by
  unfold decode_float_ext
  apply dres_sane_dbind (read_exact_sane 31 i)
  intro buf r _
  split
  · split
    · trivial
    · split <;> trivial
  · trivial

theorem decode_float_ext_ok {pf : PF} {i : List Nat} {t : Term} {r : List Nat}
    (h : decode_float_ext pf i = .ok t r) : r.length ≤ i.length := by
  unfold decode_float_ext at h
  obtain ⟨buf, r1, h1, h⟩ := dbind_eq_ok h
  have hle := read_exact_ok h1
  split at h
  · split at h
    · exact DRes.noConfusion h
    · split at h
      · cases h; exact hle
      · exact DRes.noConfusion h
  · exact DRes.noConfusion h

theorem decode_small_integer_ext_sane (i : List Nat) :
    dres_sane (decode_small_integer_ext i) := by
  unfold decode_small_integer_ext
  apply dres_sane_dbind (read_u8_sane i)
  intro b r _
  trivial

theorem decode_small_integer_ext_ok {i : List Nat} {t : Term} {r : List Nat}
    (h : decode_small_integer_ext i = .ok t r) : r.length ≤ i.length := by
  unfold decode_small_integer_ext at h
  obtain ⟨b, r1, h1, h⟩ := dbind_eq_ok h
  cases h
  exact le_of_lt (read_u8_ok h1)

theorem decode_integer_ext_sane (i : List Nat) :
    dres_sane (decode_integer_ext i) := by
  unfold decode_integer_ext
  apply dres_sane_dbind (read_exact_sane 4 i)
  intro bs r _
  trivial

theorem decode_integer_ext_ok {i : List Nat} {t : Term} {r : List Nat}
    (h : decode_integer_ext i = .ok t r) : r.length ≤ i.length := by
  unfold decode_integer_ext at h
  obtain ⟨bs, r1, h1, h⟩ := dbind_eq_ok h
  cases h
  exact read_exact_ok h1

theorem decode_small_big_ext_sane (i : List Nat) :
    dres_sane (decode_small_big_ext i) := by
  unfold decode_small_big_ext
  apply dres_sane_dbind (read_u8_sane i)
  intro count r1 _
  apply dres_sane_dbind (read_u8_sane r1)
  intro sign r2 _
  apply dres_sane_dbind (read_exact_sane count r2)
  intro bs r3 _
  apply dres_sane_dthen
  intro neg _
  trivial

theorem decode_small_big_ext_ok {i : List Nat} {t : Term} {r : List Nat}
    (h : decode_small_big_ext i = .ok t r) : r.length ≤ i.length := by
  unfold decode_small_big_ext at h
  obtain ⟨count, r1, h1, h⟩ := dbind_eq_ok h
  obtain ⟨sign, r2, h2, h⟩ := dbind_eq_ok h
  obtain ⟨bs, r3, h3, h⟩ := dbind_eq_ok h
  obtain ⟨neg, hsg, h⟩ := dthen_eq_ok h
  cases h
  have := read_u8_ok h1
  have := read_u8_ok h2
  have := read_exact_ok h3
  omega

theorem decode_large_big_ext_sane (i : List Nat) :
    dres_sane (decode_large_big_ext i) := by
  unfold decode_large_big_ext
  apply dres_sane_dbind (read_u32_sane i)
  intro count r1 _
  apply dres_sane_dbind (read_u8_sane r1)
  intro sign r2 _
  apply dres_sane_dbind (read_exact_sane count r2)
  intro bs r3 _
  apply dres_sane_dthen
  intro neg _
  trivial

theorem decode_large_big_ext_ok {i : List Nat} {t : Term} {r : List Nat}
    (h : decode_large_big_ext i = .ok t r) : r.length ≤ i.length := by
  unfold decode_large_big_ext at h
  obtain ⟨count, r1, h1, h⟩ := dbind_eq_ok h
  obtain ⟨sign, r2, h2, h⟩ := dbind_eq_ok h
  obtain ⟨bs, r3, h3, h⟩ := dbind_eq_ok h
  obtain ⟨neg, hsg, h⟩ := dthen_eq_ok h
  cases h
  have := read_u32_ok h1
  have := read_u8_ok h2
  have := read_exact_ok h3
  omega

theorem decode_atom_ext_sane (i : List Nat) : dres_sane (decode_atom_ext i) := by
  unfold decode_atom_ext
  apply dres_sane_dbind (read_u16_sane i)
  intro len r1 _
  apply dres_sane_dbind (read_exact_sane len r1)
  intro buf r2 _
  split <;> trivial

theorem decode_atom_ext_ok {i : List Nat} {t : Term} {r : List Nat}
    (h : decode_atom_ext i = .ok t r) : r.length ≤ i.length := by
  unfold decode_atom_ext at h
  obtain ⟨len, r1, h1, h⟩ := dbind_eq_ok h
  obtain ⟨buf, r2, h2, h⟩ := dbind_eq_ok h
  split at h
  · cases h; exact le_trans (read_exact_ok h2) (read_u16_ok h1)
  · exact DRes.noConfusion h

theorem decode_small_atom_ext_sane (i : List Nat) :
    dres_sane (decode_small_atom_ext i) := by
  unfold decode_small_atom_ext
  apply dres_sane_dbind (read_u8_sane i)
  intro len r1 _
  apply dres_sane_dbind (read_exact_sane len r1)
  intro buf r2 _
  split <;> trivial

theorem decode_small_atom_ext_ok {i : List Nat} {t : Term} {r : List Nat}
    (h : decode_small_atom_ext i = .ok t r) : r.length ≤ i.length := by
  unfold decode_small_atom_ext at h
  obtain ⟨len, r1, h1, h⟩ := dbind_eq_ok h
  obtain ⟨buf, r2, h2, h⟩ := dbind_eq_ok h
  split at h
  · cases h; exact le_trans (read_exact_ok h2) (le_of_lt (read_u8_ok h1))
  · exact DRes.noConfusion h

theorem decode_atom_utf8_ext_sane (i : List Nat) :
    dres_sane (decode_atom_utf8_ext i) := by
  unfold decode_atom_utf8_ext
  apply dres_sane_dbind (read_u16_sane i)
  intro len r1 _
  apply dres_sane_dbind (read_exact_sane len r1)
  intro buf r2 _
  split <;> trivial

theorem decode_atom_utf8_ext_ok {i : List Nat} {t : Term} {r : List Nat}
    (h : decode_atom_utf8_ext i = .ok t r) : r.length ≤ i.length := by
  unfold decode_atom_utf8_ext at h
  obtain ⟨len, r1, h1, h⟩ := dbind_eq_ok h
  obtain ⟨buf, r2, h2, h⟩ := dbind_eq_ok h
  split at h
  · cases h; exact le_trans (read_exact_ok h2) (read_u16_ok h1)
  · exact DRes.noConfusion h

theorem decode_small_atom_utf8_ext_sane (i : List Nat) :
    dres_sane (decode_small_atom_utf8_ext i) := by
  unfold decode_small_atom_utf8_ext
  apply dres_sane_dbind (read_u8_sane i)
  intro len r1 _
  apply dres_sane_dbind (read_exact_sane len r1)
  intro buf r2 _
  split <;> trivial

theorem decode_small_atom_utf8_ext_ok {i : List Nat} {t : Term} {r : List Nat}
    (h : decode_small_atom_utf8_ext i = .ok t r) : r.length ≤ i.length := by
  unfold decode_small_atom_utf8_ext at h
  obtain ⟨len, r1, h1, h⟩ := dbind_eq_ok h
  obtain ⟨buf, r2, h2, h⟩ := dbind_eq_ok h
  split at h
  · cases h; exact le_trans (read_exact_ok h2) (le_of_lt (read_u8_ok h1))
  · exact DRes.noConfusion h

theorem decode_list_ext_sane {dec : List Nat → DRes Term} (hc : consumes dec)
    (i : List Nat) (hs : ∀ s, s.length ≤ i.length → dres_sane (dec s)) :
    dres_sane (decode_list_ext dec i) := by
  unfold decode_list_ext
  apply dres_sane_dbind (read_u32_sane i)
  intro count r1 h1
  have hl1 : r1.length ≤ i.length := read_u32_ok h1
  apply dres_sane_dbind (decode_elements_sane hc count r1
    fun s hsl => hs s (by omega))
  intro es r2 h2
  have hl2 : r2.length ≤ r1.length := decode_elements_ok hc h2
  apply dres_sane_dbind (hs r2 (by omega))
  intro last r3 _
  split <;> trivial

theorem decode_list_ext_ok {dec : List Nat → DRes Term} (hc : consumes dec)
    {i : List Nat} {t : Term} {r : List Nat}
    (h : decode_list_ext dec i = .ok t r) : r.length ≤ i.length := by
  unfold decode_list_ext at h
  obtain ⟨count, r1, h1, h⟩ := dbind_eq_ok h
  obtain ⟨es, r2, h2, h⟩ := dbind_eq_ok h
  obtain ⟨last, r3, h3, h⟩ := dbind_eq_ok h
  have hl1 := read_u32_ok h1
  have hl2 := decode_elements_ok hc h2
  have hl3 := hc _ _ _ h3
  split at h <;> (cases h; omega)

theorem decode_small_tuple_ext_sane {dec : List Nat → DRes Term}
    (hc : consumes dec) (i : List Nat)
    (hs : ∀ s, s.length ≤ i.length → dres_sane (dec s)) :
    dres_sane (decode_small_tuple_ext dec i) := by
  unfold decode_small_tuple_ext
  apply dres_sane_dbind (read_u8_sane i)
  intro count r1 h1
  have hl1 : r1.length < i.length := read_u8_ok h1
  apply dres_sane_dbind (decode_elements_sane hc count r1
    fun s hsl => hs s (by omega))
  intro es r2 _
  trivial

theorem decode_small_tuple_ext_ok {dec : List Nat → DRes Term}
    (hc : consumes dec) {i : List Nat} {t : Term} {r : List Nat}
    (h : decode_small_tuple_ext dec i = .ok t r) : r.length ≤ i.length := by
  unfold decode_small_tuple_ext at h
  obtain ⟨count, r1, h1, h⟩ := dbind_eq_ok h
  obtain ⟨es, r2, h2, h⟩ := dbind_eq_ok h
  cases h
  have := read_u8_ok h1
  have := decode_elements_ok hc h2
  omega

theorem decode_large_tuple_ext_sane {dec : List Nat → DRes Term}
    (hc : consumes dec) (i : List Nat)
    (hs : ∀ s, s.length ≤ i.length → dres_sane (dec s)) :
    dres_sane (decode_large_tuple_ext dec i) := by
  unfold decode_large_tuple_ext
  apply dres_sane_dbind (read_u32_sane i)
  intro count r1 h1
  have hl1 : r1.length ≤ i.length := read_u32_ok h1
  apply dres_sane_dbind (decode_elements_sane hc count r1
    fun s hsl => hs s (by omega))
  intro es r2 _
  trivial

theorem decode_large_tuple_ext_ok {dec : List Nat → DRes Term}
    (hc : consumes dec) {i : List Nat} {t : Term} {r : List Nat}
    (h : decode_large_tuple_ext dec i = .ok t r) : r.length ≤ i.length := by
  unfold decode_large_tuple_ext at h
  obtain ⟨count, r1, h1, h⟩ := dbind_eq_ok h
  obtain ⟨es, r2, h2, h⟩ := dbind_eq_ok h
  cases h
  have := read_u32_ok h1
  have := decode_elements_ok hc h2
  omega

theorem decode_map_ext_sane {dec : List Nat → DRes Term} (hc : consumes dec)
    (i : List Nat) (hs : ∀ s, s.length ≤ i.length → dres_sane (dec s)) :
    dres_sane (decode_map_ext dec i) := by
  unfold decode_map_ext
  apply dres_sane_dbind (read_u32_sane i)
  intro count r1 h1
  have hl1 : r1.length ≤ i.length := read_u32_ok h1
  apply dres_sane_dbind (decode_pairs_sane hc count r1
    fun s hsl => hs s (by omega))
  intro ps r2 _
  trivial

theorem decode_map_ext_ok {dec : List Nat → DRes Term} (hc : consumes dec)
    {i : List Nat} {t : Term} {r : List Nat}
    (h : decode_map_ext dec i = .ok t r) : r.length ≤ i.length := by
  unfold decode_map_ext at h
  obtain ⟨count, r1, h1, h⟩ := dbind_eq_ok h
  obtain ⟨ps, r2, h2, h⟩ := dbind_eq_ok h
  cases h
  have := read_u32_ok h1
  have := decode_pairs_ok hc h2
  omega

theorem decode_pid_ext_sane {dec : List Nat → DRes Term} (_hc : consumes dec)
    (i : List Nat) (hs : ∀ s, s.length ≤ i.length → dres_sane (dec s)) :
    dres_sane (decode_pid_ext dec i) := by
  unfold decode_pid_ext
  apply dres_sane_dbind (hs i le_rfl)
  intro t1 r1 _
  apply dres_sane_dthen
  intro node _
  apply dres_sane_dbind (read_u32_sane r1)
  intro id r3 _
  apply dres_sane_dbind (read_u32_sane r3)
  intro serial r4 _
  apply dres_sane_dbind (read_u8_sane r4)
  intro creation r5 _
  trivial

theorem decode_pid_ext_ok {dec : List Nat → DRes Term} (hc : consumes dec)
    {i : List Nat} {t : Term} {r : List Nat}
    (h : decode_pid_ext dec i = .ok t r) : r.length ≤ i.length := by
  unfold decode_pid_ext at h
  obtain ⟨t1, r1, h1, h⟩ := dbind_eq_ok h
  obtain ⟨node, hna, h⟩ := dthen_eq_ok h
  obtain ⟨id, r3, h3, h⟩ := dbind_eq_ok h
  obtain ⟨serial, r4, h4, h⟩ := dbind_eq_ok h
  obtain ⟨creation, r5, h5, h⟩ := dbind_eq_ok h
  cases h
  have := hc _ _ _ h1
  have := read_u32_ok h3
  have := read_u32_ok h4
  have := read_u8_ok h5
  omega

theorem decode_port_ext_sane {dec : List Nat → DRes Term} (_hc : consumes dec)
    (i : List Nat) (hs : ∀ s, s.length ≤ i.length → dres_sane (dec s)) :
    dres_sane (decode_port_ext dec i) := by
  unfold decode_port_ext
  apply dres_sane_dbind (hs i le_rfl)
  intro t1 r1 _
  apply dres_sane_dthen
  intro node _
  apply dres_sane_dbind (read_u32_sane r1)
  intro id r3 _
  apply dres_sane_dbind (read_u8_sane r3)
  intro creation r4 _
  trivial

theorem decode_port_ext_ok {dec : List Nat → DRes Term} (hc : consumes dec)
    {i : List Nat} {t : Term} {r : List Nat}
    (h : decode_port_ext dec i = .ok t r) : r.length ≤ i.length := by
  unfold decode_port_ext at h
  obtain ⟨t1, r1, h1, h⟩ := dbind_eq_ok h
  obtain ⟨node, hna, h⟩ := dthen_eq_ok h
  obtain ⟨id, r3, h3, h⟩ := dbind_eq_ok h
  obtain ⟨creation, r4, h4, h⟩ := dbind_eq_ok h
  cases h
  have := hc _ _ _ h1
  have := read_u32_ok h3
  have := read_u8_ok h4
  omega

theorem decode_reference_ext_sane {dec : List Nat → DRes Term}
    (_hc : consumes dec) (i : List Nat)
    (hs : ∀ s, s.length ≤ i.length → dres_sane (dec s)) :
    dres_sane (decode_reference_ext dec i) := by
  unfold decode_reference_ext
  apply dres_sane_dbind (hs i le_rfl)
  intro t1 r1 _
  apply dres_sane_dthen
  intro node _
  apply dres_sane_dbind (read_u32_sane r1)
  intro id0 r3 _
  apply dres_sane_dbind (read_u8_sane r3)
  intro creation r4 _
  trivial

theorem decode_reference_ext_ok {dec : List Nat → DRes Term}
    (hc : consumes dec) {i : List Nat} {t : Term} {r : List Nat}
    (h : decode_reference_ext dec i = .ok t r) : r.length ≤ i.length := by
  unfold decode_reference_ext at h
  obtain ⟨t1, r1, h1, h⟩ := dbind_eq_ok h
  obtain ⟨node, hna, h⟩ := dthen_eq_ok h
  obtain ⟨id0, r3, h3, h⟩ := dbind_eq_ok h
  obtain ⟨creation, r4, h4, h⟩ := dbind_eq_ok h
  cases h
  have := hc _ _ _ h1
  have := read_u32_ok h3
  have := read_u8_ok h4
  omega

theorem decode_new_reference_ext_sane {dec : List Nat → DRes Term}
    (_hc : consumes dec) (i : List Nat)
    (hs : ∀ s, s.length ≤ i.length → dres_sane (dec s)) :
    dres_sane (decode_new_reference_ext dec i) := by
  unfold decode_new_reference_ext
  apply dres_sane_dbind (read_u16_sane i)
  intro id_count r1 h1
  have hl1 : r1.length ≤ i.length := read_u16_ok h1
  apply dres_sane_dbind (hs r1 hl1)
  intro t1 r2 _
  apply dres_sane_dthen
  intro node _
  apply dres_sane_dbind (read_u8_sane r2)
  intro creation r4 _
  apply dres_sane_dbind (read_u32_list_sane id_count r4)
  intro id r5 _
  trivial

theorem decode_new_reference_ext_ok {dec : List Nat → DRes Term}
    (hc : consumes dec) {i : List Nat} {t : Term} {r : List Nat}
    (h : decode_new_reference_ext dec i = .ok t r) : r.length ≤ i.length := by
  unfold decode_new_reference_ext at h
  obtain ⟨id_count, r1, h1, h⟩ := dbind_eq_ok h
  obtain ⟨t1, r2, h2, h⟩ := dbind_eq_ok h
  obtain ⟨node, hna, h⟩ := dthen_eq_ok h
  obtain ⟨creation, r4, h4, h⟩ := dbind_eq_ok h
  obtain ⟨id, r5, h5, h⟩ := dbind_eq_ok h
  cases h
  have := read_u16_ok h1
  have := hc _ _ _ h2
  have := read_u8_ok h4
  have := read_u32_list_ok h5
  omega

theorem decode_export_ext_sane {dec : List Nat → DRes Term}
    (hc : consumes dec) (i : List Nat)
    (hs : ∀ s, s.length ≤ i.length → dres_sane (dec s)) :
    dres_sane (decode_export_ext dec i) := by
  unfold decode_export_ext
  apply dres_sane_dbind (hs i le_rfl)
  intro tm r1 h1
  have hl1 : r1.length < i.length := hc _ _ _ h1
  apply dres_sane_dthen
  intro m _
  apply dres_sane_dbind (hs r1 (by omega))
  intro tf r2 h2
  have hl2 : r2.length < r1.length := hc _ _ _ h2
  apply dres_sane_dthen
  intro f _
  apply dres_sane_dbind (hs r2 (by omega))
  intro ta r3 _
  apply dres_sane_dthen
  intro a _
  trivial

theorem decode_export_ext_ok {dec : List Nat → DRes Term}
    (hc : consumes dec) {i : List Nat} {t : Term} {r : List Nat}
    (h : decode_export_ext dec i = .ok t r) : r.length ≤ i.length := by
  unfold decode_export_ext at h
  obtain ⟨tm, r1, h1, h⟩ := dbind_eq_ok h
  obtain ⟨m, hma, h⟩ := dthen_eq_ok h
  obtain ⟨tf, r2, h2, h⟩ := dbind_eq_ok h
  obtain ⟨f, hfa, h⟩ := dthen_eq_ok h
  obtain ⟨ta, r3, h3, h⟩ := dbind_eq_ok h
  obtain ⟨a, har, h⟩ := dthen_eq_ok h
  cases h
  have := hc _ _ _ h1
  have := hc _ _ _ h2
  have := hc _ _ _ h3
  omega

theorem decode_fun_ext_sane {dec : List Nat → DRes Term} (hc : consumes dec)
    (i : List Nat) (hs : ∀ s, s.length ≤ i.length → dres_sane (dec s)) :
    dres_sane (decode_fun_ext dec i) := by
  unfold decode_fun_ext
  apply dres_sane_dbind (read_u32_sane i)
  intro num_free r1 h1
  have hl1 : r1.length ≤ i.length := read_u32_ok h1
  apply dres_sane_dbind (hs r1 hl1)
  intro tp r2 h2
  have hl2 : r2.length < r1.length := hc _ _ _ h2
  apply dres_sane_dthen
  intro p _
  apply dres_sane_dbind (hs r2 (by omega))
  intro tm r3 h3
  have hl3 : r3.length < r2.length := hc _ _ _ h3
  apply dres_sane_dthen
  intro m _
  apply dres_sane_dbind (hs r3 (by omega))
  intro ti r4 h4
  have hl4 : r4.length < r3.length := hc _ _ _ h4
  apply dres_sane_dthen
  intro index _
  apply dres_sane_dbind (hs r4 (by omega))
  intro tu r5 h5
  have hl5 : r5.length < r4.length := hc _ _ _ h5
  apply dres_sane_dthen
  intro uniq _
  apply dres_sane_dbind (decode_elements_sane hc num_free r5
    fun s hsl => hs s (by omega))
  intro vars r6 _
  trivial

theorem decode_fun_ext_ok {dec : List Nat → DRes Term} (hc : consumes dec)
    {i : List Nat} {t : Term} {r : List Nat}
    (h : decode_fun_ext dec i = .ok t r) : r.length ≤ i.length := by
  unfold decode_fun_ext at h
  obtain ⟨num_free, r1, h1, h⟩ := dbind_eq_ok h
  obtain ⟨tp, r2, h2, h⟩ := dbind_eq_ok h
  obtain ⟨p, hpa, h⟩ := dthen_eq_ok h
  obtain ⟨tm, r3, h3, h⟩ := dbind_eq_ok h
  obtain ⟨m, hma, h⟩ := dthen_eq_ok h
  obtain ⟨ti, r4, h4, h⟩ := dbind_eq_ok h
  obtain ⟨index, hia, h⟩ := dthen_eq_ok h
  obtain ⟨tu, r5, h5, h⟩ := dbind_eq_ok h
  obtain ⟨uniq, hua, h⟩ := dthen_eq_ok h
  obtain ⟨vars, r6, h6, h⟩ := dbind_eq_ok h
  cases h
  have := read_u32_ok h1
  have := hc _ _ _ h2
  have := hc _ _ _ h3
  have := hc _ _ _ h4
  have := hc _ _ _ h5
  have := decode_elements_ok hc h6
  omega

theorem decode_new_fun_ext_sane {dec : List Nat → DRes Term}
    (hc : consumes dec) (i : List Nat)
    (hs : ∀ s, s.length ≤ i.length → dres_sane (dec s)) :
    dres_sane (decode_new_fun_ext dec i) := by
  unfold decode_new_fun_ext
  apply dres_sane_dbind (read_u32_sane i)
  intro size0 r1 h1
  have hl1 : r1.length ≤ i.length := read_u32_ok h1
  apply dres_sane_dbind (read_u8_sane r1)
  intro arity r2 h2
  have hl2 : r2.length < r1.length := read_u8_ok h2
  apply dres_sane_dbind (read_exact_sane 16 r2)
  intro uniq r3 h3
  have hl3 : r3.length ≤ r2.length := read_exact_ok h3
  apply dres_sane_dbind (read_u32_sane r3)
  intro index r4 h4
  have hl4 : r4.length ≤ r3.length := read_u32_ok h4
  apply dres_sane_dbind (read_u32_sane r4)
  intro num_free r5 h5
  have hl5 : r5.length ≤ r4.length := read_u32_ok h5
  apply dres_sane_dbind (hs r5 (by omega))
  intro tm r6 h6
  have hl6 : r6.length < r5.length := hc _ _ _ h6
  apply dres_sane_dthen
  intro m _
  apply dres_sane_dbind (hs r6 (by omega))
  intro toi r7 h7
  have hl7 : r7.length < r6.length := hc _ _ _ h7
  apply dres_sane_dthen
  intro old_index _
  apply dres_sane_dbind (hs r7 (by omega))
  intro tou r8 h8
  have hl8 : r8.length < r7.length := hc _ _ _ h8
  apply dres_sane_dthen
  intro old_uniq _
  apply dres_sane_dbind (hs r8 (by omega))
  intro tp r9 h9
  have hl9 : r9.length < r8.length := hc _ _ _ h9
  apply dres_sane_dthen
  intro p _
  apply dres_sane_dbind (decode_elements_sane hc num_free r9
    fun s hsl => hs s (by omega))
  intro vars r10 _
  trivial

theorem decode_new_fun_ext_ok {dec : List Nat → DRes Term}
    (hc : consumes dec) {i : List Nat} {t : Term} {r : List Nat}
    (h : decode_new_fun_ext dec i = .ok t r) : r.length ≤ i.length := by
  unfold decode_new_fun_ext at h
  obtain ⟨size0, r1, h1, h⟩ := dbind_eq_ok h
  obtain ⟨arity, r2, h2, h⟩ := dbind_eq_ok h
  obtain ⟨uniq, r3, h3, h⟩ := dbind_eq_ok h
  obtain ⟨index, r4, h4, h⟩ := dbind_eq_ok h
  obtain ⟨num_free, r5, h5, h⟩ := dbind_eq_ok h
  obtain ⟨tm, r6, h6, h⟩ := dbind_eq_ok h
  obtain ⟨m, hma, h⟩ := dthen_eq_ok h
  obtain ⟨toi, r7, h7, h⟩ := dbind_eq_ok h
  obtain ⟨old_index, hia, h⟩ := dthen_eq_ok h
  obtain ⟨tou, r8, h8, h⟩ := dbind_eq_ok h
  obtain ⟨old_uniq, hua, h⟩ := dthen_eq_ok h
  obtain ⟨tp, r9, h9, h⟩ := dbind_eq_ok h
  obtain ⟨p, hpa, h⟩ := dthen_eq_ok h
  obtain ⟨vars, r10, h10, h⟩ := dbind_eq_ok h
  cases h
  have := read_u32_ok h1
  have := read_u8_ok h2
  have := read_exact_ok h3
  have := read_u32_ok h4
  have := read_u32_ok h5
  have := hc _ _ _ h6
  have := hc _ _ _ h7
  have := hc _ _ _ h8
  have := hc _ _ _ h9
  have := decode_elements_ok hc h10
  omega

set_option maxHeartbeats 2000000 in
theorem decode_term_with_tag_sane {pf : PF} {dec : List Nat → DRes Term}
    (hc : consumes dec) (tag : Nat) (i : List Nat)
    (hs : ∀ s, s.length ≤ i.length → dres_sane (dec s)) :
    dres_sane (decode_term_with_tag pf dec tag i) := by
  unfold decode_term_with_tag
  split
  · exact decode_new_float_ext_sane i
  · exact decode_bit_binary_ext_sane i
  · exact Or.inl rfl
  · exact decode_small_integer_ext_sane i
  · exact decode_integer_ext_sane i
  · exact decode_float_ext_sane pf i
  · exact decode_atom_ext_sane i
  · exact decode_reference_ext_sane hc i hs
  · exact decode_port_ext_sane hc i hs
  · exact decode_pid_ext_sane hc i hs
  · exact decode_small_tuple_ext_sane hc i hs
  · exact decode_large_tuple_ext_sane hc i hs
  · exact decode_nil_ext_sane i
  · exact decode_string_ext_sane i
  · exact decode_list_ext_sane hc i hs
  · exact decode_binary_ext_sane i
  · exact decode_small_big_ext_sane i
  · exact decode_large_big_ext_sane i
  · exact decode_new_fun_ext_sane hc i hs
  · exact decode_export_ext_sane hc i hs
  · exact decode_new_reference_ext_sane hc i hs
  · exact decode_small_atom_ext_sane i
  · exact decode_map_ext_sane hc i hs
  · exact decode_fun_ext_sane hc i hs
  · exact decode_atom_utf8_ext_sane i
  · exact decode_small_atom_utf8_ext_sane i
  · trivial

set_option maxHeartbeats 2000000 in
theorem decode_term_with_tag_ok {pf : PF} {dec : List Nat → DRes Term}
    (hc : consumes dec) {tag : Nat} {i : List Nat} {t : Term} {r : List Nat}
    (h : decode_term_with_tag pf dec tag i = .ok t r) : r.length ≤ i.length := by
  unfold decode_term_with_tag at h
  split at h
  · exact decode_new_float_ext_ok h
  · exact decode_bit_binary_ext_ok h
  · exact DRes.noConfusion h
  · exact decode_small_integer_ext_ok h
  · exact decode_integer_ext_ok h
  · exact decode_float_ext_ok h
  · exact decode_atom_ext_ok h
  · exact decode_reference_ext_ok hc h
  · exact decode_port_ext_ok hc h
  · exact decode_pid_ext_ok hc h
  · exact decode_small_tuple_ext_ok hc h
  · exact decode_large_tuple_ext_ok hc h
  · exact decode_nil_ext_ok h
  · exact decode_string_ext_ok h
  · exact decode_list_ext_ok hc h
  · exact decode_binary_ext_ok h
  · exact decode_small_big_ext_ok h
  · exact decode_large_big_ext_ok h
  · exact decode_new_fun_ext_ok hc h
  · exact decode_export_ext_ok hc h
  · exact decode_new_reference_ext_ok hc h
  · exact decode_small_atom_ext_ok h
  · exact decode_map_ext_ok hc h
  · exact decode_fun_ext_ok hc h
  · exact decode_atom_utf8_ext_ok h
  · exact decode_small_atom_utf8_ext_ok h
  · exact DRes.noConfusion h

/-- Every successful `decode_term` call consumes at least the tag byte. -/
theorem decode_term_consumes (pf : PF) : ∀ f : Nat, consumes (decode_term pf f) := by
  intro f
  induction f with
  | zero => intro i t r h; exact DRes.noConfusion h
  | succ f ih =>
    intro i t r h
    unfold decode_term at h
    obtain ⟨tag, rest, h1, h2⟩ := dbind_eq_ok h
    have := decode_term_with_tag_ok ih h2
    have := read_u8_ok h1
    omega

/-- With fuel exceeding the input length, `decode_term` never runs out of
fuel and aborts only with a decoder cause. -/
theorem decode_term_sane (pf : PF) :
    ∀ (f : Nat) (i : List Nat), i.length < f → dres_sane (decode_term pf f i) := by
  intro f
  induction f with
  | zero => intro i h; exact absurd h (Nat.not_lt_zero _)
  | succ f ih =>
    intro i hlen
    unfold decode_term
    apply dres_sane_dbind (read_u8_sane i)
    intro tag rest h1
    have hr := read_u8_ok h1
    exact decode_term_with_tag_sane (decode_term_consumes pf f) tag rest
      fun s hsl => ih s (by omega)

theorem outcome_sane_to_outcome {x : DRes Term} (hx : dres_sane x) :
    outcome_sane (to_outcome x) := by
  cases x <;> trivial

/-! ### Claim C3: totality of decode over its error type -/

/-- Claim C3 (amended): `decode` is total over `{Ok, Err, abort}`: for
every input byte sequence it returns `Ok(Term)` or `Err(DecodeError)`,
except that the distribution-header tag 68, the `ATOM_CACHE_REF` tag 82,
and a `BIT_BINARY` payload with nonempty body whose tail-bits byte is
outside `1..=8` abort the program (a panic) instead of returning an error.
Formally: the outcome is never the fuel artifact, and any abort has one of
the decoder's three causes. -/
theorem decode_total_up_to_aborts (inflate : List Nat → Option (List Nat))
    (pf : PF) (input : List Nat) : outcome_sane (decode inflate pf input) := by
  cases input with
  | nil => trivial
  | cons version rest =>
    by_cases hv : version = 131
    · subst hv
      cases rest with
      | nil => trivial
      | cons tag r2 =>
        by_cases h80 : tag = 80
        · subst h80
          show outcome_sane (decode_compressed_term inflate pf r2)
          unfold decode_compressed_term
          cases hre : read_exact 4 r2 with
          | ok szb rrest =>
            show outcome_sane (match inflate rrest with
              | none => DecodeOutcome.err DecodeError.ioError
              | some ds => to_outcome (decode_term pf (ds.length + 1) ds))
            cases hinf : inflate rrest with
            | none => trivial
            | some ds =>
              exact outcome_sane_to_outcome
                (decode_term_sane pf (ds.length + 1) ds (by omega))
          | err e => trivial
          | aborted c => trivial
          | outOfFuel => trivial
        · by_cases h68 : tag = 68
          · subst h68
            have hd : decode inflate pf (131 :: 68 :: r2)
                = .aborted .unimplementedTag := by
              simp [decode, h80]
            rw [hd]
            exact Or.inl rfl
          · have hd : decode inflate pf (131 :: tag :: r2)
                = to_outcome (decode_term_with_tag pf
                    (decode_term pf (r2.length + 1)) tag r2) := by
              simp [decode, h80, h68]
            rw [hd]
            apply outcome_sane_to_outcome
            apply decode_term_with_tag_sane
              (decode_term_consumes pf (r2.length + 1)) tag r2
            intro s hsl
            exact decode_term_sane pf (r2.length + 1) s (by omega)
    · have hd : decode inflate pf (version :: rest)
          = .err (.unsupportedVersion version) := by
        simp [decode, hv]
      rw [hd]
      trivial

/-- Counterexample to C3 as stated: on input `[131, 68]` (the
distribution-header tag) `decode` aborts via `unimplemented!()`; it neither
returns a term nor a `DecodeError`. -/
theorem decode_aborts_on_distribution_header :
    decode no_inflate no_pf [131, 68] = .aborted .unimplementedTag ∧
    (∀ t, decode no_inflate no_pf [131, 68] ≠ .ok t) ∧
    (∀ e, decode no_inflate no_pf [131, 68] ≠ .err e) := by
  refine ⟨rfl, fun t h => ?_, fun e h => ?_⟩ <;>
    rw [show decode no_inflate no_pf [131, 68] = .aborted .unimplementedTag
      from rfl] at h <;> cases h

end Eetf

